import Mathlib

/-!
Verification of the CostWatch cost-retrieval pipeline (src/cost_fetcher.py and
src/main.py), shallowly embedded in Lean.  Monetary amounts are modelled as
rationals, Python's `round(x, 2)` as rounding of `100 * x` to the nearest
integer, and every external effect (Cost Explorer groups, CloudWatch
datapoints, CloudTrail lookups, random draws, raised exceptions) as an
explicit input of the embedded function.
-/

set_option maxHeartbeats 1000000

/-- Python's `round(x, 2)`: round to the nearest multiple of `1/100` (the
half-to-even detail of float rounding never matters at the inputs considered
here, where `100 * x` never lands exactly on a half-integer). -/
def round2 (x : ℚ) : ℚ := (round (100 * x) : ℚ) / 100

/-- One step of the stable descending insertion that models Python's
`sorted(..., key=..., reverse=True)` (a stable sort): the element is placed
before the first position whose key is less than or equal to its own key. -/
def insertKeyDesc {α β : Type} [LinearOrder β] (key : α → β) (a : α) : List α → List α
  | [] => [a]
  | b :: bs => if key b ≤ key a then a :: b :: bs else b :: insertKeyDesc key a bs

/-- Stable sort in descending key order, the model of Python's
`sorted(..., key=..., reverse=True)`.  A stable descending sort is uniquely
determined by the key order and by the input order of equal keys, so any
stable implementation (Python uses timsort) computes this same function. -/
def sortKeyDesc {α β : Type} [LinearOrder β] (key : α → β) : List α → List α
  | [] => []
  | a :: as => insertKeyDesc key a (sortKeyDesc key as)

/-- Embeds `get_top_services` of src/cost_fetcher.py: stable sort by cost in
descending order, then truncate.  The limit (Python default `10`) is modelled
as a natural number; the function is pure, mirroring the side-effect-free
source. -/
def get_top_services (services : List (String × ℚ)) (limit : ℕ) : List (String × ℚ) :=
  (sortKeyDesc (fun p => p.2) services).take limit

/-- Characters of `pat` match an initial segment of `s`. -/
def matchesAt : List Char → List Char → Bool
  | [], _ => true
  | _ :: _, [] => false
  | p :: ps, c :: cs => p == c && matchesAt ps cs

/-- Fuel-driven worker for `pyReplace`.  Fuel equal to the length of the text
always suffices, because every step consumes at least one character of the
text, so the zero-fuel fallback is never reached from `pyReplace`. -/
def replaceFuel (pat repl : List Char) : ℕ → List Char → List Char
  | 0, s => s
  | _ + 1, [] => []
  | fuel + 1, c :: cs =>
    if !pat.isEmpty && matchesAt pat (c :: cs) then
      repl ++ replaceFuel pat repl fuel (List.drop (pat.length - 1) cs)
    else
      c :: replaceFuel pat repl fuel cs

/-- Python's `str.replace`: replace every occurrence of `pat` by `repl`,
scanning left to right without overlap and continuing after the replacement
text. -/
def pyReplace (s pat repl : String) : String :=
  ⟨replaceFuel pat.data repl.data s.data.length s.data⟩

/-- Python's `str.lower` (the service names involved are ASCII, where
`Char.toLower` agrees with Python). -/
def pyLower (s : String) : String := ⟨s.data.map Char.toLower⟩

/-- The static `SERVICE_TO_EVENT_SOURCE` map of src/cost_fetcher.py, from Cost
Explorer service names to CloudTrail event sources. -/
def SERVICE_TO_EVENT_SOURCE : List (String × String) :=
  [("Amazon EC2", "ec2.amazonaws.com"),
   ("Amazon S3", "s3.amazonaws.com"),
   ("Amazon RDS", "rds.amazonaws.com"),
   ("AWS Lambda", "lambda.amazonaws.com"),
   ("Amazon CloudFront", "cloudfront.amazonaws.com"),
   ("Amazon DynamoDB", "dynamodb.amazonaws.com"),
   ("Amazon ECS", "ecs.amazonaws.com"),
   ("Amazon SQS", "sqs.amazonaws.com"),
   ("Amazon SNS", "sns.amazonaws.com"),
   ("AWS Fargate", "ecs.amazonaws.com"),
   ("Amazon EKS", "eks.amazonaws.com"),
   ("Amazon ElastiCache", "elasticache.amazonaws.com"),
   ("Amazon Redshift", "redshift.amazonaws.com"),
   ("AWS Glue", "glue.amazonaws.com"),
   ("Amazon CloudWatch", "monitoring.amazonaws.com"),
   ("AWS Key Management Service", "kms.amazonaws.com"),
   ("Amazon Route 53", "route53.amazonaws.com"),
   ("Amazon API Gateway", "apigateway.amazonaws.com"),
   ("AWS Secrets Manager", "secretsmanager.amazonaws.com"),
   ("Amazon Elastic Load Balancing", "elasticloadbalancing.amazonaws.com")]

/-- Heuristic derivation of a CloudTrail event source for a service name that
misses in `SERVICE_TO_EVENT_SOURCE` (src/cost_fetcher.py lines 102-104):
lower-case the name, remove every occurrence of "amazon " and of "aws ",
remove the remaining spaces, and append ".amazonaws.com". -/
def deriveEventSource (name : String) : String :=
  pyReplace (pyReplace (pyReplace (pyLower name) "amazon " "") "aws " "") " " ""
    ++ ".amazonaws.com"

/-- Event source chosen by `fetch_service_activity` for one service name: the
mapped identifier when the map holds a non-empty entry (Python's
`if not event_source:` treats both `None` and `""` as missing), the heuristic
derivation otherwise. -/
def eventSourceFor (name : String) : String :=
  match SERVICE_TO_EVENT_SOURCE.lookup name with
  | some es => if es = "" then deriveEventSource name else es
  | none => deriveEventSource name

/-- Embeds `fetch_service_activity` of src/cost_fetcher.py.  `importOk`
models availability of the boto3 integration (`false` is the ImportError
path, which zero-fills every requested name; the outer generic `except`
behaves identically).  `lookup` models one CloudTrail `lookup_events` call
keyed by event source, `none` being a raised exception (the per-service
`except` path) and `some k` a response whose events count `k`.  The function
is total: no input makes it fail. -/
def fetch_service_activity (importOk : Bool) (lookup : String → Option ℕ)
    (service_names : List String) : List (String × ℕ) :=
  if importOk then
    service_names.map (fun n => (n, (lookup (eventSourceFor n)).getD 0))
  else
    service_names.map (fun n => (n, 0))

/-- Embeds the `CostData` dataclass of src/cost_fetcher.py.  The
`last_updated` wall-clock timestamp carries no information relevant to the
claims and is left out of the model. -/
structure CostData where
  month_to_date : ℚ
  top_services : List (String × ℚ × ℕ)

/-- Keys of an association stream in first-occurrence order: the iteration
order of the insertion-ordered Python dicts built by the cost fetchers. -/
def firstKeys : List String → List String
  | [] => []
  | k :: ks => k :: (firstKeys ks).filter (fun x => decide (x ≠ k))

/-- Total cost accumulated for one service over all returned groups. -/
def aggValue (gs : List (String × ℚ)) (k : String) : ℚ :=
  ((gs.filter (fun g => decide (g.1 = k))).map Prod.snd).sum

/-- Embeds the `service_cost_map` accumulation loops of src/cost_fetcher.py: a
Python dict keyed by service name, filled in stream order, each key holding
the sum of its costs; iterating the dict yields first-occurrence key order. -/
def aggregateByKey (gs : List (String × ℚ)) : List (String × ℚ) :=
  (firstKeys (gs.map Prod.fst)).map (fun k => (k, aggValue gs k))

/-- Shared tail of the ledger-based breakdowns: keep the entries whose
aggregated cost exceeds the negligible threshold 0.001 and round the kept
costs to two decimals. -/
def thresholdRound (m : List (String × ℚ)) : List (String × ℚ) :=
  m.filterMap (fun p => if (1/1000 : ℚ) < p.2 then some (p.1, round2 p.2) else none)

/-- Embeds `fetch_cost_explorer_services` of src/cost_fetcher.py (its success
path; the surrounding `except` clause returns the empty list).  `gs` is the
stream of `(service name, cost)` groups across all returned days. -/
def fetch_cost_explorer_services (gs : List (String × ℚ)) : List (String × ℚ) :=
  thresholdRound (aggregateByKey gs)

/-- The fixed base-cost table of `fetch_simulated_costs`. -/
def service_costs : List (String × ℚ) :=
  [("AWS WAF", 148/100),
   ("AWS Amplify", 34/100),
   ("AWS Cost Explorer", 24/100),
   ("Amazon EC2 Container Registry (ECR)", 4/100),
   ("Amazon Bedrock AgentCore", 1/100),
   ("Amazon S3", 1/100),
   ("Amazon CloudWatch", 1/100)]

/-- The fixed per-service activity ranges of `fetch_simulated_costs`; the
`random.randint` draw over them is modelled by the oracle argument `act` of
`fetch_simulated_costs`. -/
def activity_ranges : List (String × ℕ × ℕ) :=
  [("AWS WAF", 50, 200),
   ("AWS Amplify", 10, 50),
   ("AWS Cost Explorer", 5, 20),
   ("Amazon EC2 Container Registry (ECR)", 20, 80),
   ("Amazon Bedrock AgentCore", 5, 30),
   ("Amazon S3", 100, 500),
   ("Amazon CloudWatch", 200, 800)]

/-- Randomized per-service costs of `fetch_simulated_costs`: each base cost
times the factor drawn for its row (`random.uniform(0.9, 1.1)`, modelled by
the oracle `u` indexed by row), rounded to two decimals. -/
def randomizedCosts (u : ℕ → ℚ) : List (String × ℚ) :=
  service_costs.enum.map (fun p => (p.2.1, round2 (p.2.2 * u p.1)))

/-- Embeds `fetch_simulated_costs` of src/cost_fetcher.py.  `u i` models the
i-th `random.uniform(0.9, 1.1)` draw; `act name` models the
`random.randint(*activity_ranges.get(name, (0, 50)))` draw for a ranked
service. -/
def fetch_simulated_costs (u : ℕ → ℚ) (act : String → ℕ) : CostData :=
  let randomized := randomizedCosts u
  let top := get_top_services randomized 10
  { month_to_date := round2 ((randomized.map Prod.snd).sum)
    top_services := top.map (fun p => (p.1, p.2, act p.1)) }

/-- Attaches activity counts to a ranked breakdown, the
`(name, cost, activity_data.get(name, 0))` comprehension of
src/cost_fetcher.py. -/
def withActivity (activity : List (String × ℕ)) (top : List (String × ℚ)) :
    List (String × ℚ × ℕ) :=
  top.map (fun p => (p.1, p.2, (activity.lookup p.1).getD 0))

/-- Embeds `fetch_november_costs` of src/cost_fetcher.py (success path): same
aggregation and threshold as `fetch_cost_explorer_services`, the total being
the sum of the kept unrounded costs, and activity forced to 0 for the
historical period. -/
def fetch_november_costs (gs : List (String × ℚ)) : CostData :=
  let kept := (aggregateByKey gs).filter (fun p => decide ((1/1000 : ℚ) < p.2))
  let top := get_top_services (kept.map (fun p => (p.1, round2 p.2))) 10
  { month_to_date := round2 ((kept.map Prod.snd).sum)
    top_services := top.map (fun p => (p.1, p.2, 0)) }

/-- Sum of the amounts of the record-type groups classified `Usage` by the
first Cost Explorer query of `fetch_aws_costs_before_credits`. -/
def usageSum (rtGroups : List (String × ℚ)) : ℚ :=
  ((rtGroups.filter (fun g => decide (g.1 = "Usage"))).map Prod.snd).sum

/-- Sum of the amounts of the record-type groups classified `Credit` (only
printed by the source, never part of the reported total). -/
def creditSum (rtGroups : List (String × ℚ)) : ℚ :=
  ((rtGroups.filter (fun g => decide (g.1 = "Credit"))).map Prod.snd).sum

/-- Groups of the second query of `fetch_aws_costs_before_credits`
(`(service, record type, cost)`) that the source admits into its per-service
map: record type `Usage` and strictly positive cost. -/
def usageGroups (svcGroups : List (String × String × ℚ)) : List (String × ℚ) :=
  svcGroups.filterMap (fun g =>
    if g.2.1 = "Usage" ∧ 0 < g.2.2 then some (g.1, g.2.2) else none)

/-- Per-service breakdown of `fetch_aws_costs_before_credits`: aggregate the
admitted usage groups by service, then threshold and round. -/
def usageServiceCosts (svcGroups : List (String × String × ℚ)) : List (String × ℚ) :=
  thresholdRound (aggregateByKey (usageGroups svcGroups))

/-- Embeds `fetch_aws_costs_before_credits` of src/cost_fetcher.py (success
path).  `rtGroups` is the record-type-grouped response of the first query,
`svcGroups` the service-and-record-type-grouped response of the second,
flattened over days; `importOk` and `lookup` feed the nested
`fetch_service_activity` call. -/
def fetch_aws_costs_before_credits (rtGroups : List (String × ℚ))
    (svcGroups : List (String × String × ℚ)) (importOk : Bool)
    (lookup : String → Option ℕ) : CostData :=
  let top := get_top_services (usageServiceCosts svcGroups) 10
  let activity := fetch_service_activity importOk lookup (top.map Prod.fst)
  { month_to_date := round2 (usageSum rtGroups)
    top_services := withActivity activity top }

/-- Embeds `fetch_aws_costs` of src/cost_fetcher.py: it delegates to
`fetch_aws_costs_before_credits` (its `except` clause only reprints and
re-raises). -/
def fetch_aws_costs (rtGroups : List (String × ℚ))
    (svcGroups : List (String × String × ℚ)) (importOk : Bool)
    (lookup : String → Option ℕ) : CostData :=
  fetch_aws_costs_before_credits rtGroups svcGroups importOk lookup

/-- The fixed checklist of service identifiers probed by
`fetch_cloudwatch_billing_metrics`. -/
def services_to_check : List String :=
  ["AmazonEC2", "AmazonS3", "AmazonRDS", "AWSLambda",
   "AmazonCloudFront", "AmazonDynamoDB", "AmazonECS",
   "AmazonSQS", "AmazonSNS", "AWSDataTransfer",
   "AmazonCloudWatch", "AWSWAF", "AWSAmplify",
   "AWSCostExplorer", "AmazonECR", "AmazonBedrock",
   "AWSSecretsManager", "AWSKeyManagementService",
   "AmazonAPIGateway", "AmazonCognito", "AmazonTextract",
   "AmazonRekognition", "AmazonComprehend", "AWSGlue"]

/-- Readable form of a checklist identifier
(`service.replace('Amazon', 'Amazon ').replace('AWS', 'AWS ')`). -/
def readableName (s : String) : String :=
  pyReplace (pyReplace s "Amazon" "Amazon ") "AWS" "AWS "

/-- Value of the latest-timestamp datapoint, 0 when there are none: the
source stably sorts the datapoints by timestamp in descending order and takes
the `Maximum` statistic of the first. -/
def latestMax (pts : List (ℕ × ℚ)) : ℚ :=
  match sortKeyDesc (fun p => p.1) pts with
  | [] => 0
  | p :: _ => p.2

/-- Step 2 of `fetch_cloudwatch_billing_metrics`: one metric query per
checklist service.  `svcData s = none` models a raised per-service exception
(that service is skipped), `some pts` a response with datapoints `pts`;
services without datapoints or with a latest value at or below the threshold
are also skipped. -/
def cwServiceCosts (svcData : String → Option (List (ℕ × ℚ))) : List (String × ℚ) :=
  services_to_check.filterMap (fun s =>
    match svcData s with
    | none => none
    | some pts =>
      if pts.isEmpty then none
      else if (1/1000 : ℚ) < latestMax pts then some (readableName s, round2 (latestMax pts))
      else none)

/-- Step 3 of `fetch_cloudwatch_billing_metrics`: when the per-service loop
produced nothing but the aggregate total is positive, the breakdown falls
back to `fetch_cost_explorer_services` (fed by `ceGroups`). -/
def cwBreakdown (aggPoints : List (ℕ × ℚ)) (svcData : String → Option (List (ℕ × ℚ)))
    (ceGroups : List (String × ℚ)) : List (String × ℚ) :=
  if cwServiceCosts svcData = [] ∧ 0 < latestMax aggPoints then
    fetch_cost_explorer_services ceGroups
  else cwServiceCosts svcData

/-- Embeds `fetch_cloudwatch_billing_metrics` of src/cost_fetcher.py (success
path).  `aggPoints` is the datapoint list of the aggregate estimated-charges
query, `svcData` the per-service query oracle, `ceGroups` the Cost Explorer
response used by the fallback, `importOk` and `lookup` feed the nested
`fetch_service_activity` call. -/
def fetch_cloudwatch_billing_metrics (aggPoints : List (ℕ × ℚ))
    (svcData : String → Option (List (ℕ × ℚ))) (ceGroups : List (String × ℚ))
    (importOk : Bool) (lookup : String → Option ℕ) : CostData :=
  let top := get_top_services (cwBreakdown aggPoints svcData ceGroups) 10
  let activity := fetch_service_activity importOk lookup (top.map Prod.fst)
  { month_to_date := round2 (latestMax aggPoints)
    top_services := withActivity activity top }

/-- Configuration fields consumed by `main` (configuration loading lives in
src/config.py, outside the sources; the two fields are taken as inputs). -/
structure WidgetConfig where
  use_simulated_data : Bool
  display_month : String

/-- The data fetcher committed by `main` for the recurring schedule. -/
inductive Fetcher
  | simulated
  | november
  | awsCosts
deriving DecidableEq

/-- Embeds the strategy selection of `main` (src/main.py lines 44-97).
`novProbe` and `liveProbe` are the outcomes of the probe calls
`fetch_november_costs()` and `fetch_aws_costs()`, `Except.error` modelling a
raised exception carrying its message.  The result pairs the committed
fetcher with the error message surfaced through `show_error_dialog`, if
any. -/
def selectFetcher (config : WidgetConfig) (novProbe liveProbe : Except String CostData) :
    Fetcher × Option String :=
  if config.use_simulated_data then (Fetcher.simulated, none)
  else if config.display_month = "november" then
    match novProbe with
    | Except.ok d =>
      if 0 < d.month_to_date then (Fetcher.november, none) else (Fetcher.simulated, none)
    | Except.error _ => (Fetcher.simulated, none)
  else
    match liveProbe with
    | Except.ok d =>
      if d.month_to_date = 0 then (Fetcher.simulated, none) else (Fetcher.awsCosts, none)
    | Except.error e => (Fetcher.simulated, some e)

/-- Modelled from the spec: the `UpdateScheduler` (src/scheduler.py, not
present under src/) drives every tick with the fetcher selected once at
startup and never re-probes; this definition records that each tick reuses
the committed fetcher unchanged. -/
def schedulerFetcherAt (selected : Fetcher) (_tick : ℕ) : Fetcher := selected

theorem round2_mono {x y : ℚ} (h : x ≤ y) : round2 x ≤ round2 y := by
  unfold round2
  have hr : round (100 * x) ≤ round (100 * y) := by
    rw [round_eq, round_eq]
    exact Int.floor_mono (by linarith)
  have hc : ((round (100 * x) : ℤ) : ℚ) ≤ ((round (100 * y) : ℤ) : ℚ) := Int.cast_le.mpr hr
  linarith

theorem round2_close (x : ℚ) : x - 1/200 ≤ round2 x ∧ round2 x ≤ x + 1/200 := by
  have h := abs_sub_round (100 * x)
  rw [abs_le] at h
  unfold round2
  constructor
  · linarith [h.2]
  · linarith [h.1]

theorem round2_two_decimal (k : ℤ) : round2 ((k : ℚ) / 100) = (k : ℚ) / 100 := by
  unfold round2
  rw [show (100 : ℚ) * ((k : ℚ) / 100) = (k : ℚ) by field_simp, round_intCast]

theorem perm_insertKeyDesc {α β : Type} [LinearOrder β] (key : α → β) (a : α) (l : List α) :
    List.Perm (insertKeyDesc key a l) (a :: l) := by
  induction l with
  | nil => exact List.Perm.refl _
  | cons b bs ih =>
    unfold insertKeyDesc
    by_cases h : key b ≤ key a
    · simp only [if_pos h]
      exact List.Perm.refl _
    · simp only [if_neg h]
      exact (ih.cons b).trans (List.Perm.swap a b bs)

theorem mem_insertKeyDesc {α β : Type} [LinearOrder β] (key : α → β) (a x : α) (l : List α) :
    x ∈ insertKeyDesc key a l ↔ x = a ∨ x ∈ l := by
  rw [(perm_insertKeyDesc key a l).mem_iff, List.mem_cons]

theorem perm_sortKeyDesc {α β : Type} [LinearOrder β] (key : α → β) (l : List α) :
    List.Perm (sortKeyDesc key l) l := by
  induction l with
  | nil => exact List.Perm.refl _
  | cons a as ih =>
    exact (perm_insertKeyDesc key a (sortKeyDesc key as)).trans (ih.cons a)

theorem pairwise_insertKeyDesc {α β : Type} [LinearOrder β] (key : α → β) (a : α) (l : List α)
    (h : l.Pairwise (fun x y => key y ≤ key x)) :
    (insertKeyDesc key a l).Pairwise (fun x y => key y ≤ key x) := by
  induction l with
  | nil => simp [insertKeyDesc]
  | cons b bs ih =>
    unfold insertKeyDesc
    rw [List.pairwise_cons] at h
    by_cases hba : key b ≤ key a
    · simp only [if_pos hba]
      refine List.pairwise_cons.mpr ⟨?_, List.pairwise_cons.mpr ⟨h.1, h.2⟩⟩
      intro x hx
      rcases List.mem_cons.mp hx with rfl | hx
      · exact hba
      · exact le_trans (h.1 x hx) hba
    · simp only [if_neg hba]
      refine List.pairwise_cons.mpr ⟨?_, ih h.2⟩
      intro x hx
      rcases (mem_insertKeyDesc key a x bs).mp hx with rfl | hx
      · exact le_of_lt (lt_of_not_le hba)
      · exact h.1 x hx

theorem pairwise_sortKeyDesc {α β : Type} [LinearOrder β] (key : α → β) (l : List α) :
    (sortKeyDesc key l).Pairwise (fun x y => key y ≤ key x) := by
  induction l with
  | nil => simp [sortKeyDesc]
  | cons a as ih => exact pairwise_insertKeyDesc key a _ ih

theorem filter_insertKeyDesc {α β : Type} [LinearOrder β] (key : α → β) (a : α) (l : List α)
    (c : β) :
    (insertKeyDesc key a l).filter (fun x => decide (key x = c)) =
      if key a = c then a :: l.filter (fun x => decide (key x = c))
      else l.filter (fun x => decide (key x = c)) := by
  induction l with
  | nil =>
    by_cases hac : key a = c <;> simp [insertKeyDesc, List.filter, hac]
  | cons b bs ih =>
    unfold insertKeyDesc
    by_cases hba : key b ≤ key a
    · simp only [if_pos hba]
      by_cases hac : key a = c <;> by_cases hbc : key b = c <;>
        simp [List.filter_cons, hac, hbc]
    · simp only [if_neg hba]
      by_cases hac : key a = c
      · have hbc : ¬ key b = c := by
          intro hbc
          exact hba (le_of_eq (hbc.trans hac.symm))
        simp [List.filter_cons, hbc, ih, hac]
      · by_cases hbc : key b = c <;> simp [List.filter_cons, hbc, ih, hac]

theorem filter_sortKeyDesc {α β : Type} [LinearOrder β] (key : α → β) (l : List α) (c : β) :
    (sortKeyDesc key l).filter (fun x => decide (key x = c)) =
      l.filter (fun x => decide (key x = c)) := by
  induction l with
  | nil => rfl
  | cons a as ih =>
    show (insertKeyDesc key a (sortKeyDesc key as)).filter _ = _
    rw [filter_insertKeyDesc]
    by_cases hac : key a = c <;> simp [List.filter_cons, hac, ih]

theorem get_top_services_pairwise (services : List (String × ℚ)) (limit : ℕ) :
    (get_top_services services limit).Pairwise (fun a b => b.2 ≤ a.2) := by
  exact (pairwise_sortKeyDesc (fun p => p.2) services).sublist
    (List.take_sublist limit _)

theorem get_top_services_length (services : List (String × ℚ)) (limit : ℕ) :
    (get_top_services services limit).length ≤ limit := by
  unfold get_top_services
  rw [List.length_take]
  exact min_le_left _ _

theorem get_top_services_all (services : List (String × ℚ)) (limit : ℕ)
    (h : services.length ≤ limit) :
    List.Perm (get_top_services services limit) services := by
  unfold get_top_services
  rw [List.take_of_length_le]
  · exact perm_sortKeyDesc _ _
  · rw [(perm_sortKeyDesc (fun p => p.2) services).length_eq]
    exact h

theorem get_top_services_stable (services : List (String × ℚ)) (limit : ℕ) (c : ℚ) :
    ∃ t, services.filter (fun p => decide (p.2 = c)) =
      (get_top_services services limit).filter (fun p => decide (p.2 = c)) ++ t := by
  refine ⟨((sortKeyDesc (fun p => p.2) services).drop limit).filter
    (fun p => decide (p.2 = c)), ?_⟩
  unfold get_top_services
  rw [← List.filter_append, List.take_append_drop,
    filter_sortKeyDesc (fun p => p.2) services c]

theorem lookup_eq_none_of_not_mem {l : List (String × String)} {a : String}
    (h : a ∉ l.map Prod.fst) : l.lookup a = none := by
  induction l with
  | nil => rfl
  | cons p ps ih =>
    simp only [List.map_cons, List.mem_cons] at h
    push_neg at h
    obtain ⟨k, v⟩ := p
    rw [List.lookup_cons]
    have hk : (a == k) = false := beq_eq_false_iff_ne.mpr h.1
    rw [hk]
    exact ih h.2

theorem mem_of_lookup_eq_some {l : List (String × String)} {a b : String}
    (h : l.lookup a = some b) : (a, b) ∈ l := by
  induction l with
  | nil => exact absurd h (by simp)
  | cons p ps ih =>
    obtain ⟨k, v⟩ := p
    rw [List.lookup_cons] at h
    by_cases hk : a = k
    · rw [show (a == k) = true from beq_iff_eq.mpr hk] at h
      simp only at h
      rw [hk, Option.some_inj.mp h]
      exact List.mem_cons_self _ _
    · rw [show (a == k) = false from beq_eq_false_iff_ne.mpr hk] at h
      simp only at h
      exact List.mem_cons_of_mem _ (ih h)

theorem mem_aggregateByKey {gs : List (String × ℚ)} {p : String × ℚ}
    (h : p ∈ aggregateByKey gs) : p.2 = aggValue gs p.1 := by
  unfold aggregateByKey at h
  rcases List.mem_map.mp h with ⟨k, hk, hp⟩
  rw [← hp]

theorem mem_thresholdRound {m : List (String × ℚ)} {q : String × ℚ}
    (h : q ∈ thresholdRound m) :
    ∃ p ∈ m, (1/1000 : ℚ) < p.2 ∧ q = (p.1, round2 p.2) := by
  unfold thresholdRound at h
  rcases List.mem_filterMap.mp h with ⟨p, hp, hf⟩
  by_cases hc : (1/1000 : ℚ) < p.2
  · rw [if_pos hc] at hf
    exact ⟨p, hp, hc, (Option.some_inj.mp hf).symm⟩
  · rw [if_neg hc] at hf
    exact absurd hf (by simp)

theorem not_mem_thresholdRound_of_small (gs : List (String × ℚ)) (name : String)
    (h : aggValue gs name < 1/1000) :
    name ∉ (thresholdRound (aggregateByKey gs)).map Prod.fst := by
  intro hmem
  rcases List.mem_map.mp hmem with ⟨q, hq, hq1⟩
  rcases mem_thresholdRound hq with ⟨p, hp, hc, hq2⟩
  have hpv := mem_aggregateByKey hp
  rw [hq2] at hq1
  simp only at hq1
  rw [hq1] at hpv
  rw [hpv] at hc
  linarith

/-- C2: for every list of `(name, cost)` pairs and every limit, the ranker
`get_top_services` returns a list descending by cost, of length at most the
limit, whose equal-cost entries keep their input order (the output restricted
to one cost value is an initial segment of the input restricted the same
way); the empty input yields the empty output.  The embedded function is
pure, so freedom from side effects is inherent in the model. -/
theorem C2_top_service_ranker (services : List (String × ℚ)) (limit : ℕ) :
    (get_top_services services limit).Pairwise (fun a b => b.2 ≤ a.2) ∧
      (get_top_services services limit).length ≤ limit ∧
      (∀ c : ℚ, ∃ t, services.filter (fun p => decide (p.2 = c)) =
        (get_top_services services limit).filter (fun p => decide (p.2 = c)) ++ t) ∧
      get_top_services [] limit = [] :=
  ⟨get_top_services_pairwise services limit, get_top_services_length services limit,
    fun c => get_top_services_stable services limit c, by simp [get_top_services, sortKeyDesc]⟩

/-- C1: the credit-adjusted source reports as month-to-date total the rounded
sum of exactly the record-type `Usage` amounts of its first query; appending
any `Credit` adjustment to that ledger, in particular a negative one that
would lower the net total `usage + credit`, leaves the reported total
unchanged. -/
theorem C1_gross_usage_total (rtGroups : List (String × ℚ))
    (svcGroups : List (String × String × ℚ)) (importOk : Bool)
    (lookup : String → Option ℕ) :
    (fetch_aws_costs_before_credits rtGroups svcGroups importOk lookup).month_to_date
        = round2 (usageSum rtGroups) ∧
      ∀ c : ℚ, c < 0 →
        (fetch_aws_costs_before_credits (rtGroups ++ [("Credit", c)]) svcGroups importOk
            lookup).month_to_date
          = (fetch_aws_costs_before_credits rtGroups svcGroups importOk
            lookup).month_to_date := by
  refine ⟨rfl, ?_⟩
  intro c hc
  show round2 (usageSum (rtGroups ++ [("Credit", c)])) = round2 (usageSum rtGroups)
  unfold usageSum
  rw [List.filter_append]
  simp

/-- Witness for C1 at a concrete ledger: usage 5.00 beside a credit of -3.00
(net 2.00), and the same ledger with the credit row appended separately. -/
theorem C1_gross_usage_total_witness :
    (fetch_aws_costs_before_credits [("Usage", 5), ("Credit", -3)] [] false
        (fun _ => none)).month_to_date = round2 (usageSum [("Usage", 5), ("Credit", -3)]) ∧
      (fetch_aws_costs_before_credits ([("Usage", 5)] ++ [("Credit", -3)]) [] false
          (fun _ => none)).month_to_date
        = (fetch_aws_costs_before_credits [("Usage", 5)] [] false
          (fun _ => none)).month_to_date :=
  ⟨(C1_gross_usage_total [("Usage", 5), ("Credit", -3)] [] false (fun _ => none)).1,
    (C1_gross_usage_total [("Usage", 5)] [] false (fun _ => none)).2 (-3) (by norm_num)⟩

/-- C4: the activity augmenter is total; with the integration unavailable it
returns 0 for every requested name; otherwise each name's entry carries its
queried count when its lookup succeeds and 0 when that single lookup fails,
while the batch always covers every requested name. -/
theorem C4_activity_isolation (lookup : String → Option ℕ) (names : List String) :
    fetch_service_activity false lookup names = names.map (fun n => (n, 0)) ∧
      (fetch_service_activity true lookup names).map Prod.fst = names ∧
      (∀ n ∈ names, lookup (eventSourceFor n) = none →
        (n, 0) ∈ fetch_service_activity true lookup names) ∧
      ∀ n ∈ names, ∀ k, lookup (eventSourceFor n) = some k →
        (n, k) ∈ fetch_service_activity true lookup names := by
  refine ⟨rfl, ?_, ?_, ?_⟩
  · show List.map Prod.fst (names.map fun n => (n, (lookup (eventSourceFor n)).getD 0)) = names
    rw [List.map_map]
    exact (List.map_congr_left fun a _ => rfl).trans (List.map_id names)
  · intro n hn hnone
    have he : (fun m => (m, (lookup (eventSourceFor m)).getD 0)) n = (n, 0) := by
      show (n, (lookup (eventSourceFor n)).getD 0) = (n, 0)
      rw [hnone, Option.getD_none]
    exact List.mem_map.mpr ⟨n, hn, he⟩
  · intro n hn k hk
    have he : (fun m => (m, (lookup (eventSourceFor m)).getD 0)) n = (n, k) := by
      show (n, (lookup (eventSourceFor n)).getD 0) = (n, k)
      rw [hk, Option.getD_some]
    exact List.mem_map.mpr ⟨n, hn, he⟩

/-- Witness for C4: one failing lookup (Amazon S3) beside one succeeding
lookup (Amazon EC2, 7 events), and the coarse import-unavailable fallback. -/
theorem C4_activity_isolation_witness :
    fetch_service_activity false (fun _ => some 9) ["Amazon S3"]
        = [("Amazon S3", 0)] ∧
      ("Amazon S3", 0) ∈ fetch_service_activity true
        (fun es => if es = "s3.amazonaws.com" then none else some 7)
        ["Amazon S3", "Amazon EC2"] ∧
      ("Amazon EC2", 7) ∈ fetch_service_activity true
        (fun es => if es = "s3.amazonaws.com" then none else some 7)
        ["Amazon S3", "Amazon EC2"] :=
  ⟨(C4_activity_isolation (fun _ => some 9) ["Amazon S3"]).1,
    (C4_activity_isolation _ _).2.2.1 "Amazon S3" (by simp) (by decide),
    (C4_activity_isolation _ _).2.2.2 "Amazon EC2" (by simp) 7 (by decide)⟩

/-- C3: startup strategy selection: a configuration requesting simulated data
selects the simulated source unconditionally; otherwise, in live
current-period mode, a probe exception is surfaced through the error dialog
and the simulated source becomes active, a probe total of exactly zero
selects the simulated source, and a positive probe total commits the live
credit-adjusted fetcher, which every scheduler tick then reuses. -/
theorem C3_strategy_selection (config : WidgetConfig)
    (novProbe liveProbe : Except String CostData) :
    (config.use_simulated_data = true →
      selectFetcher config novProbe liveProbe = (Fetcher.simulated, none)) ∧
    (config.use_simulated_data = false → config.display_month ≠ "november" →
      (∀ e, liveProbe = Except.error e →
        selectFetcher config novProbe liveProbe = (Fetcher.simulated, some e)) ∧
      (∀ d, liveProbe = Except.ok d → d.month_to_date = 0 →
        (selectFetcher config novProbe liveProbe).1 = Fetcher.simulated) ∧
      ∀ d, liveProbe = Except.ok d → 0 < d.month_to_date →
        (selectFetcher config novProbe liveProbe).1 = Fetcher.awsCosts ∧
        ∀ n : ℕ, schedulerFetcherAt (selectFetcher config novProbe liveProbe).1 n
          = Fetcher.awsCosts) := by
  constructor
  · intro h
    simp [selectFetcher, h]
  · intro h1 h2
    refine ⟨?_, ?_, ?_⟩
    · intro e he
      simp [selectFetcher, h1, h2, he]
    · intro d hd hz
      simp [selectFetcher, h1, h2, hd, hz]
    · intro d hd hpos
      have hz : d.month_to_date ≠ 0 := ne_of_gt hpos
      constructor
      · simp [selectFetcher, h1, h2, hd, hz]
      · intro n
        show (selectFetcher config novProbe liveProbe).1 = Fetcher.awsCosts
        simp [selectFetcher, h1, h2, hd, hz]

/-- Witness for C3: the three branches at concrete configurations and probe
outcomes. -/
theorem C3_strategy_selection_witness :
    selectFetcher ⟨true, "current"⟩ (Except.error "n") (Except.error "n")
        = (Fetcher.simulated, none) ∧
      selectFetcher ⟨false, "current"⟩ (Except.error "n")
          (Except.error "AWS credentials not found")
        = (Fetcher.simulated, some "AWS credentials not found") ∧
      (selectFetcher ⟨false, "current"⟩ (Except.error "n")
        (Except.ok ⟨5, []⟩)).1 = Fetcher.awsCosts :=
  ⟨(C3_strategy_selection ⟨true, "current"⟩ (Except.error "n") (Except.error "n")).1 rfl,
    ((C3_strategy_selection ⟨false, "current"⟩ (Except.error "n")
        (Except.error "AWS credentials not found")).2 rfl (by decide)).1
      "AWS credentials not found" rfl,
    (((C3_strategy_selection ⟨false, "current"⟩ (Except.error "n")
        (Except.ok ⟨5, []⟩)).2 rfl (by decide)).2.2 ⟨5, []⟩ rfl (by norm_num)).1⟩

/-- C7: a service whose aggregated (pre-rounding) cost is below the
negligible threshold 0.001 never appears in the breakdown handed to the
ranker, neither in the usage-ledger source `fetch_cost_explorer_services`
nor in the per-service breakdown of `fetch_aws_costs_before_credits`. -/
theorem C7_negligible_threshold (gs : List (String × ℚ))
    (svcGroups : List (String × String × ℚ)) (name : String) :
    (aggValue gs name < 1/1000 →
      name ∉ (fetch_cost_explorer_services gs).map Prod.fst) ∧
    (aggValue (usageGroups svcGroups) name < 1/1000 →
      name ∉ (usageServiceCosts svcGroups).map Prod.fst) :=
  ⟨fun h => not_mem_thresholdRound_of_small gs name h,
    fun h => not_mem_thresholdRound_of_small (usageGroups svcGroups) name h⟩

/-- Witness for C7: a service billed 0.0005, below the threshold both as a
bare ledger group and as a usage-record group. -/
theorem C7_negligible_threshold_witness :
    "Amazon Chime" ∉ (fetch_cost_explorer_services [("Amazon Chime", 1/2000)]).map Prod.fst ∧
      "Amazon Chime" ∉
        (usageServiceCosts [("Amazon Chime", "Usage", 1/2000)]).map Prod.fst :=
  ⟨(C7_negligible_threshold [("Amazon Chime", 1/2000)] [("Amazon Chime", "Usage", 1/2000)]
      "Amazon Chime").1 (by
        show aggValue [("Amazon Chime", 1/2000)] "Amazon Chime" < 1/1000
        norm_num [aggValue, List.filter]),
    (C7_negligible_threshold [("Amazon Chime", 1/2000)] [("Amazon Chime", "Usage", 1/2000)]
      "Amazon Chime").2 (by
        show aggValue (usageGroups [("Amazon Chime", "Usage", 1/2000)]) "Amazon Chime" < 1/1000
        norm_num [aggValue, usageGroups, List.filterMap, List.filter])⟩

theorem service_map_values_ne_empty :
    ∀ q ∈ SERVICE_TO_EVENT_SOURCE, q.2 ≠ "" := by decide

/-- C9: a service name missing from the static map gets its event source
derived deterministically rather than failing: lower-case the name, remove
the occurrences of "amazon " and "aws ", remove the remaining spaces and
append ".amazonaws.com"; a mapped name uses its mapped identifier
unchanged. -/
theorem C9_event_source_derivation (name : String) :
    (name ∉ SERVICE_TO_EVENT_SOURCE.map Prod.fst →
      eventSourceFor name =
        pyReplace (pyReplace (pyReplace (pyLower name) "amazon " "") "aws " "") " " ""
          ++ ".amazonaws.com") ∧
    ∀ es, SERVICE_TO_EVENT_SOURCE.lookup name = some es → eventSourceFor name = es := by
  constructor
  · intro h
    unfold eventSourceFor
    rw [lookup_eq_none_of_not_mem h]
    rfl
  · intro es hes
    unfold eventSourceFor
    rw [hes]
    exact if_neg (service_map_values_ne_empty (name, es) (mem_of_lookup_eq_some hes))

/-- Witness for C9: the unmapped name "Amazon Bedrock AgentCore" is derived
heuristically, the mapped name "Amazon EC2" resolves to its mapped event
source. -/
theorem C9_event_source_derivation_witness :
    eventSourceFor "Amazon Bedrock AgentCore" =
        pyReplace (pyReplace (pyReplace (pyLower "Amazon Bedrock AgentCore") "amazon " "")
          "aws " "") " " "" ++ ".amazonaws.com" ∧
      eventSourceFor "Amazon EC2" = "ec2.amazonaws.com" :=
  ⟨(C9_event_source_derivation "Amazon Bedrock AgentCore").1 (by decide),
    (C9_event_source_derivation "Amazon EC2").2 "ec2.amazonaws.com" (by decide)⟩

theorem readable_nodup : (services_to_check.map readableName).Nodup := by decide

/-- C8 (amended): in the aggregate billing-metric source, a failing
per-service query leaves that service out of the step-2 breakdown entirely;
when the step-2 breakdown is empty while the step-1 aggregate total is
positive, the breakdown handed to the ranker is the usage-ledger fallback
`fetch_cost_explorer_services`; and the reported month-to-date total is
always the step-1 aggregate value rounded to two decimals. -/
theorem C8_cloudwatch_fallback (aggPoints : List (ℕ × ℚ))
    (svcData : String → Option (List (ℕ × ℚ))) (ceGroups : List (String × ℚ))
    (importOk : Bool) (lookup : String → Option ℕ) :
    (∀ s ∈ services_to_check, svcData s = none →
      readableName s ∉ (cwServiceCosts svcData).map Prod.fst) ∧
    (cwServiceCosts svcData = [] → 0 < latestMax aggPoints →
      cwBreakdown aggPoints svcData ceGroups = fetch_cost_explorer_services ceGroups) ∧
    (fetch_cloudwatch_billing_metrics aggPoints svcData ceGroups importOk
        lookup).month_to_date = round2 (latestMax aggPoints) := by
  refine ⟨?_, ?_, rfl⟩
  · intro s hs hnone hmem
    rcases List.mem_map.mp hmem with ⟨q, hq, hq1⟩
    rcases List.mem_filterMap.mp hq with ⟨s2, hs2, hf⟩
    cases hd : svcData s2 with
    | none =>
      rw [hd] at hf
      exact absurd hf (by simp)
    | some pts =>
      rw [hd] at hf
      simp only at hf
      by_cases h1 : pts.isEmpty
      · rw [if_pos h1] at hf
        exact absurd hf (by simp)
      · rw [if_neg h1] at hf
        by_cases h2 : (1/1000 : ℚ) < latestMax pts
        · rw [if_pos h2] at hf
          have hq2 := Option.some_inj.mp hf
          have hname : readableName s2 = readableName s := by
            rw [← hq2] at hq1
            exact hq1
          have hss : s2 = s := List.inj_on_of_nodup_map readable_nodup hs2 hs hname
          rw [hss, hnone] at hd
          exact absurd hd (by simp)
        · rw [if_neg h2] at hf
          exact absurd hf (by simp)
  · intro h1 h2
    unfold cwBreakdown
    rw [if_pos ⟨h1, h2⟩]

/-- Witness for C8 at concrete inputs: every per-service query failing, an
aggregate datapoint of 2.00, and the Cost Explorer fallback fed one S3 group
of 1.00. -/
theorem C8_cloudwatch_fallback_witness :
    "Amazon EC2" ∉ (cwServiceCosts (fun _ => none)).map Prod.fst ∧
      cwBreakdown [(0, 2)] (fun _ => none) [("Amazon S3", 1)]
        = fetch_cost_explorer_services [("Amazon S3", 1)] ∧
      (fetch_cloudwatch_billing_metrics [(0, 2)] (fun _ => none) [("Amazon S3", 1)] false
        (fun _ => none)).month_to_date = round2 (latestMax [(0, 2)]) :=
  ⟨by
    have h := (C8_cloudwatch_fallback [(0, 2)] (fun _ => none) [("Amazon S3", 1)] false
      (fun _ => none)).1 "AmazonEC2" (by decide) rfl
    exact fun hmem => h (by
      show readableName "AmazonEC2" ∈ _
      rw [show readableName "AmazonEC2" = "Amazon EC2" from rfl]
      exact hmem),
    (C8_cloudwatch_fallback [(0, 2)] (fun _ => none) [("Amazon S3", 1)] false
      (fun _ => none)).2.1 rfl (by show (0:ℚ) < 2; norm_num),
    (C8_cloudwatch_fallback [(0, 2)] (fun _ => none) [("Amazon S3", 1)] false
      (fun _ => none)).2.2⟩

/-- Counterexample to C8 as stated: with a single aggregate datapoint of
value 2.1334, every per-service query failing and the fallback returning an
empty ledger, the fallback conditions of the claim hold, yet the reported
month-to-date total is the rounded 2.13 and not the step-1 aggregate value
2.1334 itself. -/
theorem C8_counterexample :
    cwServiceCosts (fun _ => none) = [] ∧
      (0 : ℚ) < latestMax [(0, 21334/10000)] ∧
      (fetch_cloudwatch_billing_metrics [(0, 21334/10000)] (fun _ => none) [] false
        (fun _ => none)).month_to_date ≠ latestMax [(0, 21334/10000)] := by
  refine ⟨rfl, by show (0:ℚ) < 21334/10000; norm_num, ?_⟩
  show round2 ((21334 : ℚ)/10000) ≠ (21334 : ℚ)/10000
  unfold round2
  rw [round_eq]
  norm_num

theorem round2_eval (x q : ℚ) (h : ((⌊100 * x + 1/2⌋ : ℤ) : ℚ)/100 = q) : round2 x = q := by
  unfold round2
  rw [round_eq]
  exact h

theorem round2_mul_bounds {b u lo hi : ℚ} (hb : 0 ≤ b) (h1 : 9/10 ≤ u) (h2 : u ≤ 11/10)
    (hlo : round2 (b * (9/10)) = lo) (hhi : round2 (b * (11/10)) = hi) :
    lo ≤ round2 (b * u) ∧ round2 (b * u) ≤ hi := by
  constructor
  · rw [← hlo]
    exact round2_mono (by nlinarith)
  · rw [← hhi]
    exact round2_mono (by nlinarith)

theorem round2_mul_range {b u : ℚ} (hb : 0 ≤ b) (h1 : 9/10 ≤ u) (h2 : u ≤ 11/10) :
    9/10 * b - 1/200 ≤ round2 (b * u) ∧ round2 (b * u) ≤ 11/10 * b + 1/200 := by
  have hc := round2_close (b * u)
  have hlo : 9/10 * b ≤ b * u := by nlinarith
  have hhi : b * u ≤ 11/10 * b := by nlinarith
  exact ⟨by linarith [hc.1], by linarith [hc.2]⟩

theorem randomizedCosts_eq (u : ℕ → ℚ) :
    randomizedCosts u =
      [("AWS WAF", round2 (148/100 * u 0)),
       ("AWS Amplify", round2 (34/100 * u 1)),
       ("AWS Cost Explorer", round2 (24/100 * u 2)),
       ("Amazon EC2 Container Registry (ECR)", round2 (4/100 * u 3)),
       ("Amazon Bedrock AgentCore", round2 (1/100 * u 4)),
       ("Amazon S3", round2 (1/100 * u 5)),
       ("Amazon CloudWatch", round2 (1/100 * u 6))] := rfl

theorem randomizedCosts_length (u : ℕ → ℚ) : (randomizedCosts u).length = 7 := by
  rw [randomizedCosts_eq]
  rfl

theorem simulated_top_perm (u : ℕ → ℚ) (act : String → ℕ) :
    List.Perm (fetch_simulated_costs u act).top_services
      ((randomizedCosts u).map (fun p => (p.1, p.2, act p.1))) := by
  have hp := get_top_services_all (randomizedCosts u) 10
    (by rw [randomizedCosts_length]; norm_num)
  exact hp.map _

theorem randomized_one : randomizedCosts (fun _ => 1) = service_costs := by
  show [("AWS WAF", round2 ((148:ℚ)/100 * 1)),
    ("AWS Amplify", round2 ((34:ℚ)/100 * 1)),
    ("AWS Cost Explorer", round2 ((24:ℚ)/100 * 1)),
    ("Amazon EC2 Container Registry (ECR)", round2 ((4:ℚ)/100 * 1)),
    ("Amazon Bedrock AgentCore", round2 ((1:ℚ)/100 * 1)),
    ("Amazon S3", round2 ((1:ℚ)/100 * 1)),
    ("Amazon CloudWatch", round2 ((1:ℚ)/100 * 1))] = service_costs
  rw [round2_eval ((148:ℚ)/100 * 1) (148/100) (by norm_num),
    round2_eval ((34:ℚ)/100 * 1) (34/100) (by norm_num),
    round2_eval ((24:ℚ)/100 * 1) (24/100) (by norm_num),
    round2_eval ((4:ℚ)/100 * 1) (4/100) (by norm_num),
    round2_eval ((1:ℚ)/100 * 1) (1/100) (by norm_num)]
  rfl

theorem pairwise_strict_filter_le_one (l : List (String × ℚ × ℕ)) (c : ℚ)
    (h : l.Pairwise (fun a b => b.2.1 < a.2.1)) :
    (l.filter (fun t => decide (t.2.1 = c))).length ≤ 1 := by
  induction l with
  | nil => simp
  | cons a as ih =>
    rw [List.pairwise_cons] at h
    by_cases hac : a.2.1 = c
    · rw [List.filter_cons, if_pos (by simp [hac])]
      have hnil : as.filter (fun t => decide (t.2.1 = c)) = [] := by
        rw [List.filter_eq_nil_iff]
        intro t ht
        simp only [decide_eq_true_eq]
        intro htc
        exact absurd (h.1 t ht) (by rw [htc, hac]; exact lt_irrefl c)
      rw [hnil]
      simp
    · rw [List.filter_cons, if_neg (by simp [hac])]
      exact ih h.2

theorem top_map_pairwise_le (l : List (String × ℚ)) (g : String × ℚ → String × ℚ × ℕ)
    (hg : ∀ p, (g p).2.1 = p.2) :
    ((get_top_services l 10).map g).Pairwise (fun a b => b.2.1 ≤ a.2.1) ∧
      ((get_top_services l 10).map g).length ≤ 10 := by
  constructor
  · refine (get_top_services_pairwise l 10).map g ?_
    intro a b hab
    rw [hg a, hg b]
    exact hab
  · rw [List.length_map]
    exact get_top_services_length l 10

/-- C6 (amended): for factors drawn in [0.9, 1.1], the simulated month-to-date
total always lies within plus or minus 10 percent of the base total 2.13,
and each ranked service cost lies within plus or minus 10 percent of its own
base cost widened by the half-cent rounding error of `round(x, 2)` (the
counterexample shows the widening is necessary). -/
theorem C6_simulated_bounds (u : ℕ → ℚ) (act : String → ℕ)
    (hu : ∀ i, i < 7 → 9/10 ≤ u i ∧ u i ≤ 11/10) :
    (9/10 * (213/100) ≤ (fetch_simulated_costs u act).month_to_date ∧
      (fetch_simulated_costs u act).month_to_date ≤ 11/10 * (213/100)) ∧
    ∀ p ∈ (fetch_simulated_costs u act).top_services,
      ∃ b : ℚ, (p.1, b) ∈ service_costs ∧
        9/10 * b - 1/200 ≤ p.2.1 ∧ p.2.1 ≤ 11/10 * b + 1/200 := by
  obtain ⟨h0a, h0b⟩ := hu 0 (by norm_num)
  obtain ⟨h1a, h1b⟩ := hu 1 (by norm_num)
  obtain ⟨h2a, h2b⟩ := hu 2 (by norm_num)
  obtain ⟨h3a, h3b⟩ := hu 3 (by norm_num)
  obtain ⟨h4a, h4b⟩ := hu 4 (by norm_num)
  obtain ⟨h5a, h5b⟩ := hu 5 (by norm_num)
  obtain ⟨h6a, h6b⟩ := hu 6 (by norm_num)
  constructor
  · show 9/10 * (213/100) ≤ round2 (((randomizedCosts u).map Prod.snd).sum)
      ∧ round2 (((randomizedCosts u).map Prod.snd).sum) ≤ 11/10 * (213/100)
    rw [randomizedCosts_eq]
    simp only [List.map_cons, List.map_nil, List.sum_cons, List.sum_nil, add_zero]
    have b0 := round2_mul_bounds (by norm_num : (0:ℚ) ≤ 148/100) h0a h0b
      (round2_eval _ (133/100) (by norm_num)) (round2_eval _ (163/100) (by norm_num))
    have b1 := round2_mul_bounds (by norm_num : (0:ℚ) ≤ 34/100) h1a h1b
      (round2_eval _ (31/100) (by norm_num)) (round2_eval _ (37/100) (by norm_num))
    have b2 := round2_mul_bounds (by norm_num : (0:ℚ) ≤ 24/100) h2a h2b
      (round2_eval _ (22/100) (by norm_num)) (round2_eval _ (26/100) (by norm_num))
    have b3 := round2_mul_bounds (by norm_num : (0:ℚ) ≤ 4/100) h3a h3b
      (round2_eval _ (4/100) (by norm_num)) (round2_eval _ (4/100) (by norm_num))
    have b4 := round2_mul_bounds (by norm_num : (0:ℚ) ≤ 1/100) h4a h4b
      (round2_eval _ (1/100) (by norm_num)) (round2_eval _ (1/100) (by norm_num))
    have b5 := round2_mul_bounds (by norm_num : (0:ℚ) ≤ 1/100) h5a h5b
      (round2_eval _ (1/100) (by norm_num)) (round2_eval _ (1/100) (by norm_num))
    have b6 := round2_mul_bounds (by norm_num : (0:ℚ) ≤ 1/100) h6a h6b
      (round2_eval _ (1/100) (by norm_num)) (round2_eval _ (1/100) (by norm_num))
    have h193 : round2 ((193:ℚ)/100) = 193/100 := round2_eval _ _ (by norm_num)
    have h233 : round2 ((233:ℚ)/100) = 233/100 := round2_eval _ _ (by norm_num)
    constructor
    · have hlow : (193:ℚ)/100 ≤ round2 (148/100 * u 0) + (round2 (34/100 * u 1)
          + (round2 (24/100 * u 2) + (round2 (4/100 * u 3) + (round2 (1/100 * u 4)
          + (round2 (1/100 * u 5) + round2 (1/100 * u 6)))))) := by
        linarith [b0.1, b1.1, b2.1, b3.1, b4.1, b5.1, b6.1]
      have hm := round2_mono hlow
      rw [h193] at hm
      linarith
    · have hhigh : round2 (148/100 * u 0) + (round2 (34/100 * u 1)
          + (round2 (24/100 * u 2) + (round2 (4/100 * u 3) + (round2 (1/100 * u 4)
          + (round2 (1/100 * u 5) + round2 (1/100 * u 6)))))) ≤ (233:ℚ)/100 := by
        linarith [b0.2, b1.2, b2.2, b3.2, b4.2, b5.2, b6.2]
      have hm := round2_mono hhigh
      rw [h233] at hm
      linarith
  · intro p hp
    rw [(simulated_top_perm u act).mem_iff] at hp
    rcases List.mem_map.mp hp with ⟨q, hq, hpe⟩
    rw [randomizedCosts_eq] at hq
    simp only [List.mem_cons, List.not_mem_nil, or_false] at hq
    rw [← hpe]
    rcases hq with h | h | h | h | h | h | h
    · subst h
      exact ⟨148/100, by simp [service_costs], round2_mul_range (by norm_num) h0a h0b⟩
    · subst h
      exact ⟨34/100, by simp [service_costs], round2_mul_range (by norm_num) h1a h1b⟩
    · subst h
      exact ⟨24/100, by simp [service_costs], round2_mul_range (by norm_num) h2a h2b⟩
    · subst h
      exact ⟨4/100, by simp [service_costs], round2_mul_range (by norm_num) h3a h3b⟩
    · subst h
      exact ⟨1/100, by simp [service_costs], round2_mul_range (by norm_num) h4a h4b⟩
    · subst h
      exact ⟨1/100, by simp [service_costs], round2_mul_range (by norm_num) h5a h5b⟩
    · subst h
      exact ⟨1/100, by simp [service_costs], round2_mul_range (by norm_num) h6a h6b⟩

/-- Witness for C6 (amended) at the all-ones factor draw. -/
theorem C6_simulated_bounds_witness :
    9/10 * ((213:ℚ)/100) ≤ (fetch_simulated_costs (fun _ => 1) (fun _ => 0)).month_to_date ∧
      (fetch_simulated_costs (fun _ => 1) (fun _ => 0)).month_to_date
        ≤ 11/10 * ((213:ℚ)/100) :=
  (C6_simulated_bounds (fun _ => 1) (fun _ => 0)
    (fun i _ => ⟨by norm_num, by norm_num⟩)).1

/-- Counterexample to C6 as stated: with the admissible factor 0.9 for every
row, the AWS WAF cost is reported as `round(1.48 * 0.9, 2) = 1.33`, which is
strictly below ninety percent of its base cost `0.9 * 1.48 = 1.332`: rounding
can push an individual service cost outside the plus-or-minus-10-percent
band. -/
theorem C6_counterexample :
    ("AWS WAF", (133:ℚ)/100, 0) ∈
        (fetch_simulated_costs (fun _ => 9/10) (fun _ => 0)).top_services ∧
      (133:ℚ)/100 < 9/10 * (148/100) := by
  constructor
  · rw [(simulated_top_perm (fun _ => 9/10) (fun _ => 0)).mem_iff]
    have hhead : (("AWS WAF", (133:ℚ)/100, 0) : String × ℚ × ℕ) =
        ((fun p : String × ℚ => (p.1, p.2, (fun _ : String => 0) p.1))
          ("AWS WAF", round2 ((148:ℚ)/100 * (9/10)))) := by
      rw [round2_eval ((148:ℚ)/100 * (9/10)) (133/100) (by norm_num)]
    rw [hhead]
    refine List.mem_map.mpr ⟨("AWS WAF", round2 ((148:ℚ)/100 * (9/10))), ?_, rfl⟩
    exact List.mem_cons_self _ _
  · norm_num

/-- C10: the simulated snapshot always ranks all seven base-table services
(seven is below the limit of ten), and its month-to-date total equals the sum
of the costs listed in its `top_services`, rounded to two decimals: for this
source, total and breakdown are not independent. -/
theorem C10_simulated_consistency (u : ℕ → ℚ) (act : String → ℕ) :
    (fetch_simulated_costs u act).top_services.length = 7 ∧
      (∀ n ∈ service_costs.map Prod.fst,
        n ∈ (fetch_simulated_costs u act).top_services.map (fun t => t.1)) ∧
      (fetch_simulated_costs u act).month_to_date =
        round2 (((fetch_simulated_costs u act).top_services.map (fun t => t.2.1)).sum) := by
  have hperm := simulated_top_perm u act
  refine ⟨?_, ?_, ?_⟩
  · rw [hperm.length_eq, List.length_map, randomizedCosts_length]
  · intro n hn
    have hp2 := hperm.map (fun t : String × ℚ × ℕ => t.1)
    rw [List.map_map] at hp2
    have hcomp : ((fun t : String × ℚ × ℕ => t.1) ∘
        (fun p : String × ℚ => (p.1, p.2, act p.1))) = Prod.fst := funext fun p => rfl
    rw [hcomp] at hp2
    have hmapeq : (randomizedCosts u).map Prod.fst = service_costs.map Prod.fst := by
      rw [randomizedCosts_eq]
      rfl
    rw [hp2.mem_iff, hmapeq]
    exact hn
  · have hp2 := hperm.map (fun t : String × ℚ × ℕ => t.2.1)
    rw [List.map_map] at hp2
    have hcomp : ((fun t : String × ℚ × ℕ => t.2.1) ∘
        (fun p : String × ℚ => (p.1, p.2, act p.1))) = Prod.snd := funext fun p => rfl
    rw [hcomp] at hp2
    have hsum := hp2.sum_eq
    show round2 (((randomizedCosts u).map Prod.snd).sum) = _
    rw [hsum]

/-- Witness for C10 at the all-ones factor draw: seven ranked services and
Amazon S3 among them. -/
theorem C10_simulated_consistency_witness :
    (fetch_simulated_costs (fun _ => 1) (fun _ => 0)).top_services.length = 7 ∧
      "Amazon S3" ∈ (fetch_simulated_costs (fun _ => 1) (fun _ => 0)).top_services.map
        (fun t => t.1) :=
  ⟨(C10_simulated_consistency (fun _ => 1) (fun _ => 0)).1,
    (C10_simulated_consistency (fun _ => 1) (fun _ => 0)).2.1 "Amazon S3"
      (by simp [service_costs])⟩

/-- C5 (amended): in every snapshot produced by any of the embedded sources,
the `top_services` sequence is descending by cost — non-strictly: equal costs
can and do occur, as the counterexample shows — and its length is at most the
configured limit of 10. -/
theorem C5_descending_bounded (u : ℕ → ℚ) (act : String → ℕ)
    (rtGroups : List (String × ℚ)) (svcGroups : List (String × String × ℚ))
    (gs : List (String × ℚ)) (aggPoints : List (ℕ × ℚ))
    (svcData : String → Option (List (ℕ × ℚ))) (ceGroups : List (String × ℚ))
    (importOk : Bool) (lookup : String → Option ℕ) :
    ((fetch_simulated_costs u act).top_services.Pairwise (fun a b => b.2.1 ≤ a.2.1) ∧
      (fetch_simulated_costs u act).top_services.length ≤ 10) ∧
    ((fetch_aws_costs_before_credits rtGroups svcGroups importOk
        lookup).top_services.Pairwise (fun a b => b.2.1 ≤ a.2.1) ∧
      (fetch_aws_costs_before_credits rtGroups svcGroups importOk
        lookup).top_services.length ≤ 10) ∧
    ((fetch_november_costs gs).top_services.Pairwise (fun a b => b.2.1 ≤ a.2.1) ∧
      (fetch_november_costs gs).top_services.length ≤ 10) ∧
    ((fetch_cloudwatch_billing_metrics aggPoints svcData ceGroups importOk
        lookup).top_services.Pairwise (fun a b => b.2.1 ≤ a.2.1) ∧
      (fetch_cloudwatch_billing_metrics aggPoints svcData ceGroups importOk
        lookup).top_services.length ≤ 10) := by
  refine ⟨?_, ?_, ?_, ?_⟩
  · exact top_map_pairwise_le (randomizedCosts u)
      (fun p => (p.1, p.2, act p.1)) (fun p => rfl)
  · exact top_map_pairwise_le (usageServiceCosts svcGroups)
      (fun p => (p.1, p.2, ((fetch_service_activity importOk lookup
        ((get_top_services (usageServiceCosts svcGroups) 10).map Prod.fst)).lookup
          p.1).getD 0))
      (fun p => rfl)
  · exact top_map_pairwise_le
      (((aggregateByKey gs).filter (fun p => decide ((1/1000 : ℚ) < p.2))).map
        (fun p => (p.1, round2 p.2)))
      (fun p => (p.1, p.2, 0)) (fun p => rfl)
  · exact top_map_pairwise_le (cwBreakdown aggPoints svcData ceGroups)
      (fun p => (p.1, p.2, ((fetch_service_activity importOk lookup
        ((get_top_services (cwBreakdown aggPoints svcData ceGroups) 10).map
          Prod.fst)).lookup p.1).getD 0))
      (fun p => rfl)

/-- Counterexample to C5 as stated: the simulated source (here at the
all-ones factor draw) ranks three services that cost exactly 0.01 each, so
its `top_services` costs are not strictly descending. -/
theorem C5_counterexample :
    ¬ (fetch_simulated_costs (fun _ => 1) (fun _ => 0)).top_services.Pairwise
      (fun a b => b.2.1 < a.2.1) := by
  intro h
  have hle := pairwise_strict_filter_le_one _ (1/100) h
  have hcount : ((fetch_simulated_costs (fun _ => 1) (fun _ => 0)).top_services.filter
      (fun t => decide (t.2.1 = 1/100))).length = 3 := by
    show (((get_top_services (randomizedCosts (fun _ => 1)) 10).map
        (fun p : String × ℚ => (p.1, p.2, (fun _ : String => 0) p.1))).filter
          (fun t => decide (t.2.1 = 1/100))).length = 3
    rw [List.filter_map, List.length_map]
    have hcomp : ((fun t : String × ℚ × ℕ => decide (t.2.1 = (1:ℚ)/100)) ∘
        (fun p : String × ℚ => (p.1, p.2, (fun _ : String => 0) p.1)))
        = fun q : String × ℚ => decide (q.2 = (1:ℚ)/100) := funext fun q => rfl
    rw [hcomp]
    rw [show get_top_services (randomizedCosts (fun _ => 1)) 10
        = sortKeyDesc (fun p : String × ℚ => p.2) (randomizedCosts (fun _ => 1)) from
      List.take_of_length_le (by
        rw [(perm_sortKeyDesc (fun p : String × ℚ => p.2) _).length_eq,
          randomizedCosts_length]
        norm_num)]
    rw [filter_sortKeyDesc (fun p : String × ℚ => p.2) (randomizedCosts (fun _ => 1))
      ((1:ℚ)/100)]
    rw [randomized_one]
    unfold service_costs
    norm_num [List.filter_cons, decide_eq_true_eq]
  rw [hcount] at hle
  exact absurd hle (by norm_num)
